import Mathlib

/-!
Verification of the APDde host-side fusion pipeline (src/APDde.py) against its
natural-language specification.

The Python program is shallowly embedded as follows:
* machine/float arithmetic is modelled over `ℚ` (all quantities involved in the
  settled claims are exactly representable in binary64 at the concrete inputs
  used, so the rational model agrees with the float computation there);
* the numpy cast `.astype(np.uint8)` is truncation toward zero followed by a
  wrap modulo 256; `.astype(int)` and Python `int(...)` are truncation toward
  zero;
* the device runtime, OpenCV raster routines and the colormap are external
  collaborators: they are modelled as explicit parameters or as deterministic
  pixel-level stand-ins, documented at each definition.
-/

/-- Truncation of a rational toward zero, the semantics of Python `int(x)` and
of numpy `.astype(int)` applied to a float value. -/
def truncToZero (q : ℚ) : ℤ := Int.tdiv q.num q.den

/-- numpy `.astype(np.uint8)` on a float array element: truncate toward zero,
then wrap modulo 256 (twos-complement wrap, no clamping). -/
def astypeUint8 (q : ℚ) : ℕ := ((truncToZero q) % 256).toNat

/-- `disparityMultiplier = 255 / depth.initialConfig.getMaxDisparity()`
(src/APDde.py line 82); the maximum disparity is supplied by the device
runtime, so it is a parameter here. -/
def disparityMultiplier (maxDisparity : ℚ) : ℚ := 255 / maxDisparity

/-- One sample of `(frameDisparity*disparityMultiplier).astype(np.uint8)`
(src/APDde.py line 132). -/
def normalizedDisparity (maxDisparity : ℚ) (raw : ℕ) : ℕ :=
  astypeUint8 ((raw : ℚ) * disparityMultiplier maxDisparity)

/-- Modelled from the words of the spec (not from the code): the spec claims
`normalizedDisparity(x,y) = clamp(round(raw(x,y) * multiplier), 0, 255)`.
Used only to compare against `normalizedDisparity` above. -/
def specNormalizedDisparity (maxDisparity : ℚ) (raw : ℕ) : ℤ :=
  min 255 (max 0 (round ((raw : ℚ) * (255 / maxDisparity))))

/-- `baseline = 0.075` meters (src/APDde.py line 25). -/
def baseline : ℚ := 75 / 1000

/-- One pixel of the depth computation (src/APDde.py lines 134-135):
`depth_calculated = (focal_length * baseline) / frameDisparity` followed by
`depth_calculated[frameDisparity == 0] = 0`.  The division-by-zero mask makes
the per-pixel function total: the zero-disparity pixel is the sentinel 0, so
no NaN/Inf value ever reaches a consumer. -/
def depth_calculated (focal : ℚ) (nd : ℕ) : ℚ :=
  if nd = 0 then 0 else (focal * baseline) / (nd : ℚ)

/-- `int(detection.confidence * 100)` (src/APDde.py lines 148 and 153). -/
def confPercent (c : ℚ) : ℤ := truncToZero (c * 100)

/-- Bridge between the Python truncation and the mathematical floor: they
agree on non-negative rationals. -/
theorem truncToZero_eq_floor (q : ℚ) (h : 0 ≤ q) : truncToZero q = ⌊q⌋ := by
  unfold truncToZero
  rw [Rat.floor_def]
  exact Int.tdiv_eq_ediv (Rat.num_nonneg.mpr h) (Int.ofNat_nonneg _)

/-- Sensor width of the `THE_400_P` mono resolution selected at line 53 of
src/APDde.py; the resolution constants come from the device runtime
(`monoRight.getResolutionWidth()` = 640). -/
def sensorWidth : ℕ := 640

/-- Sensor height of the `THE_400_P` mono resolution
(`monoRight.getResolutionHeight()` = 400). -/
def sensorHeight : ℕ := 400

/-- Square crop dimension: the `squareDim = min(sensorWidth, sensorHeight)` of the spec;
equals the dimension of `croppedFrame = np.zeros((400, 400))` (line 104). -/
def squareDim : ℕ := min sensorWidth sensorHeight

/-- `offsetX = (monoRight.getResolutionWidth() - monoRight.getResolutionHeight()) // 2`
(src/APDde.py line 102); Python `//` is floor division. -/
def offsetX : ℤ := ((sensorWidth : ℤ) - (sensorHeight : ℤ)) / 2

/-- `np.clip(x, 0, 1)` on one value. -/
def clip01 (q : ℚ) : ℚ := min 1 (max 0 q)

/-- Normalized bounding box as produced by the inference collaborator:
`(xmin, ymin, xmax, ymax)`, nominally in [0,1] but possibly outside. -/
structure NormBbox where
  xmin : ℚ
  ymin : ℚ
  xmax : ℚ
  ymax : ℚ

/-- Integer pixel box `(x0, y0, x1, y1)`. -/
structure Box4 where
  x0 : ℤ
  y0 : ℤ
  x1 : ℤ
  y1 : ℤ
deriving DecidableEq

/-- `frameNorm(frame, bbox)` (src/APDde.py lines 106-109): clip each normalized
coordinate to [0,1], scale even indices (x) by `frame.shape[1]` and odd
indices (y) by `frame.shape[0]`, then cast to int (truncation toward zero).
In the program it is always called with `croppedFrame`, whose shape is
`(sensorHeight, sensorHeight)`. -/
def frameNorm (shape0 shape1 : ℕ) (b : NormBbox) : Box4 :=
  ⟨truncToZero (clip01 b.xmin * (shape1 : ℚ)),
   truncToZero (clip01 b.ymin * (shape0 : ℚ)),
   truncToZero (clip01 b.xmax * (shape1 : ℚ)),
   truncToZero (clip01 b.ymax * (shape0 : ℚ))⟩

/-- The pixel box of a detection: `frameNorm(croppedFrame, bbox)` followed by
`bbox[::2] += offsetX` (src/APDde.py lines 144-145) — the crop offset is added
to the x coordinates only. -/
def pixelBox (b : NormBbox) : Box4 :=
  ⟨(frameNorm sensorHeight sensorHeight b).x0 + offsetX,
   (frameNorm sensorHeight sensorHeight b).y0,
   (frameNorm sensorHeight sensorHeight b).x1 + offsetX,
   (frameNorm sensorHeight sensorHeight b).y1⟩

/-- Python `int((a + b)/2)`: true division to float, then truncation. -/
def pyHalf (a b : ℤ) : ℤ := truncToZero (((a + b : ℤ) : ℚ) / 2)

/-- `center_x = int((bbox[0]+bbox[2])/2)` (src/APDde.py line 150), computed on
the post-offset pixel box. -/
def centerX (b : NormBbox) : ℤ := pyHalf (pixelBox b).x0 (pixelBox b).x1

/-- `center_y = int((bbox[1]+bbox[3])/2)` (src/APDde.py line 150). -/
def centerY (b : NormBbox) : ℤ := pyHalf (pixelBox b).y0 (pixelBox b).y1

/-- The lookup `depth_calculated[center_y, center_x]` (line 151) is in bounds
exactly when the row index is below the map height and the column index below
the map width (the disparity frame has the full sensor dimensions). -/
def inBoundsLookup (cy cx : ℤ) : Prop :=
  0 ≤ cy ∧ cy < (sensorHeight : ℤ) ∧ 0 ≤ cx ∧ cx < (sensorWidth : ℤ)

instance (cy cx : ℤ) : Decidable (inBoundsLookup cy cx) := by
  unfold inBoundsLookup; infer_instance

/-- `labelMap` (src/APDde.py lines 19-20). -/
def labelMap : List String :=
  ["background", "aeroplane", "bicycle", "bird", "boat", "bottle", "bus", "car",
   "cat", "chair", "cow", "diningtable", "dog", "horse", "motorbike", "person",
   "pottedplant", "sheep", "sofa", "train", "tvmonitor"]

/-- `includedLabels` (src/APDde.py line 22). -/
def includedLabels : List String :=
  ["person", "car", "motorbike", "bicycle", "bus", "aeroplane", "background", "train"]

/-- One detection from the `nn` stream: class label index, confidence, and a
normalized bounding box. -/
structure Detection where
  label : ℕ
  confidence : ℚ
  xmin : ℚ
  ymin : ℚ
  xmax : ℚ
  ymax : ℚ

/-- Default name for an out-of-range label index. -/
def noLabel : String := ""

/-- `labelMap[detection.label]` (total model: out-of-range indices give the
empty string, which is not in `includedLabels`; Python would raise there, and
the detector only emits indices 0-20). -/
def detName (d : Detection) : String := labelMap.getD d.label noLabel

/-- Normalized bbox of a detection. -/
def detBox (d : Detection) : NormBbox := ⟨d.xmin, d.ymin, d.xmax, d.ymax⟩

/-- Depth sampled at the detection center, `depth_calculated[center_y, center_x]`
(src/APDde.py line 151); the depth map is modelled as a total function, the
bounds question is settled separately. -/
def centerDepth (dm : ℤ → ℤ → ℚ) (b : NormBbox) : ℚ := dm (centerY b) (centerX b)

/-- The Python two-decimal float format (the .2f conversion of line 152) for the
non-negative depth values: round to two decimal
places and print with exactly two fractional digits.  (Python rounds the
underlying binary64 half-to-even; on the exact rationals used here we round
half-up, which agrees at every input appearing in a settled claim.) -/
def formatF2 (q : ℚ) : String :=
  let n : ℕ := (round (q * 100)).toNat
  toString (n / 100) ++ "." ++ (if n % 100 < 10 then "0" else "") ++ toString (n % 100)

/-- One drawn overlay element (src/APDde.py lines 146-152): the box outline,
the class-name text, the confidence text, or the distance text. -/
inductive RenderElem where
  | box : Box4 → RenderElem
  | nameText : String → RenderElem
  | confText : String → RenderElem
  | distText : String → RenderElem
deriving DecidableEq

/-- The observability line printed at src/APDde.py line 153:
`Item Classification: <name>, Distance: <d>m, Confidence: <p>%`. -/
def obsLineFor (name : String) (dv : ℚ) (pct : ℤ) : String :=
  "Item Classification: " ++ name ++ ", Distance: " ++ formatF2 dv ++
    "m, Confidence: " ++ toString pct ++ "%"

/-- The body of the per-detection render loop (src/APDde.py lines 142-153) as
the sequence of drawn elements plus the printed observability lines: a
detection whose label name is in `includedLabels` yields one rectangle, one
class-name text, one confidence text, one distance text and one printed line;
any other detection yields nothing. -/
def renderDetection (dm : ℤ → ℤ → ℚ) (d : Detection) : List RenderElem × List String :=
  if detName d ∈ includedLabels then
    let pb := pixelBox (detBox d)
    let dv := centerDepth dm (detBox d)
    ([RenderElem.box pb,
      RenderElem.nameText (detName d),
      RenderElem.confText (toString (confPercent d.confidence) ++ "%"),
      RenderElem.distText (formatF2 dv ++ "m")],
     [obsLineFor (detName d) dv (confPercent d.confidence)])
  else ([], [])

/-- Recognizer for box elements. -/
def isBoxElem : RenderElem → Bool
  | RenderElem.box _ => true
  | _ => false

/-- Recognizer for class-name text elements. -/
def isNameElem : RenderElem → Bool
  | RenderElem.nameText _ => true
  | _ => false

/-- Recognizer for confidence text elements. -/
def isConfElem : RenderElem → Bool
  | RenderElem.confText _ => true
  | _ => false

/-- Recognizer for distance text elements. -/
def isDistElem : RenderElem → Bool
  | RenderElem.distText _ => true
  | _ => false

/-- A frame buffer: rows of packed BGR pixel values.  OpenCV draw calls write
into the buffer they are handed. -/
def Image : Type := List (List ℕ)

instance : DecidableEq Image := by
  unfold Image; infer_instance

/-- The drawing color `(0, 255, 0)` (green, src/APDde.py line 103), packed. -/
def green : ℕ := 65280

/-- Write one pixel of a buffer; coordinates outside the buffer are ignored
(OpenCV clips drawing primitives at the image border). -/
def setPixel (img : Image) (y x : ℤ) (c : ℕ) : Image :=
  if 0 ≤ y ∧ 0 ≤ x then
    List.set img y.toNat ((List.getD img y.toNat []).set x.toNat c)
  else img

/-- The pixels of a rectangle outline of thickness 2, the raster effect of
`cv2.rectangle(frame, (x0,y0), (x1,y1), color, 2)` (src/APDde.py line 146):
the points of the filled rectangle within one pixel of its border.  The exact
rasterization of OpenCV is an external collaborator; what matters for the
settled claims is that the call writes a deterministic, generally non-empty
pixel set into the destination buffer. -/
def rectPixels (x0 y0 x1 y1 : ℤ) : List (ℤ × ℤ) :=
  (List.range (x1 - x0 + 1).toNat).flatMap fun i =>
    (List.range (y1 - y0 + 1).toNat).filterMap fun j =>
      let x := x0 + (i : ℤ)
      let y := y0 + (j : ℤ)
      if x ≤ x0 + 1 ∨ x1 - 1 ≤ x ∨ y ≤ y0 + 1 ∨ y1 - 1 ≤ y then some (x, y) else none

/-- Raster effect of `cv2.rectangle` on the destination buffer. -/
def drawRect (img : Image) (x0 y0 x1 y1 : ℤ) : Image :=
  (rectPixels x0 y0 x1 y1).foldl (fun im p => setPixel im p.2 p.1 green) img

/-- Raster effect of `cv2.putText(frame, s, (x, y), ...)` (lines 147-152),
modelled as a deterministic stamp of the drawing color at the text anchor; the
glyph shapes drawn by OpenCV are external and irrelevant to the claims, which
only need the draw to write into the destination buffer deterministically. -/
def drawTextStamp (img : Image) (x y : ℤ) (s : String) : Image :=
  setPixel img y x green

/-- The complete drawing pass of the render loop (src/APDde.py lines 142-152)
on the buffer referenced by `frameDisparity`: for each allow-listed detection,
the rectangle followed by the three text draws.  The draw calls write into the
very buffer that is passed in — this is what `cv2.rectangle(frameDisparity, ...)`
does — so the function describes both the displayed image and the value the
`frameDisparity` cache holds afterwards. -/
def annotate (dm : ℤ → ℤ → ℚ) (img : Image) (dets : List Detection) : Image :=
  dets.foldl
    (fun im d =>
      if detName d ∈ includedLabels then
        let pb := pixelBox (detBox d)
        let dv := centerDepth dm (detBox d)
        let im1 := drawRect im pb.x0 pb.y0 pb.x1 pb.y1
        let im2 := drawTextStamp im1 (pb.x0 + 10) (pb.y0 + 20) (detName d)
        let im3 := drawTextStamp im2 (pb.x0 + 10) (pb.y0 + 40)
          (toString (confPercent d.confidence) ++ "%")
        drawTextStamp im3 (pb.x0 + 10) (pb.y0 + 60) (formatF2 dv ++ "m")
      else im)
    img

/-- The raw disparity map produced by the device on one tick: a grid of
non-negative integer samples. -/
def RawDisparity : Type := List (List ℕ)

/-- Per-pixel normalization of a raw disparity frame (src/APDde.py line 132). -/
def normFrame (maxD : ℚ) (raw : RawDisparity) : List (List ℕ) :=
  raw.map (List.map (normalizedDisparity maxD))

/-- The depth map derived from a normalized disparity frame (lines 133-135),
as a total lookup function; indices outside the grid are modelled as the
sentinel 0 (whether the program can actually index outside the grid is the
subject of a separate claim). -/
def depthOfNorm (focal : ℚ) (nd : List (List ℕ)) : ℤ → ℤ → ℚ :=
  fun y x =>
    if 0 ≤ y ∧ 0 ≤ x then
      depth_calculated focal ((List.getD nd y.toNat []).getD x.toNat 0)
    else 0

/-- `cv2.applyColorMap(frameDisparity, cv2.COLORMAP_JET)` (line 136): a fixed
per-pixel color mapping supplied by the external library, threaded through as
the parameter `jet`. -/
def applyColorMap (jet : ℕ → ℕ) (nd : List (List ℕ)) : Image :=
  nd.map (List.map jet)

/-- What the non-blocking polls of one iteration of the main loop observed
(src/APDde.py lines 115-121 and 157): `tryGet` results for the four cached
streams, the drained `h265` chunks, and whether `cv2.waitKey(1)` returned the
quit key. -/
structure TickInput where
  inRight : Option ℕ
  inManip : Option ℕ
  inDet : Option (List Detection)
  inDisparity : Option RawDisparity
  encChunks : List (List ℕ)
  quitKey : Bool

/-- The mutable cache variables of the main loop (src/APDde.py lines 98-101
and 26): `frame`, `frameManip`, `frameDisparity`, `detections` and
`depth_calculated`.  The right and manip frames are opaque to the fusion
logic and carried as numbers; `depth_calculated` starts as the scalar 0 of
line 26, modelled as the constant-zero lookup (the render path can only reach
it after a disparity frame has set it). -/
structure LoopState where
  frame : Option ℕ
  frameManip : Option ℕ
  frameDisparity : Option Image
  detections : List Detection
  depthMap : ℤ → ℤ → ℚ

/-- Cache update for one `tryGet` result (lines 123-127): a present read
replaces the cached value, an absent read leaves it untouched. -/
def updOpt {α : Type} (newv old : Option α) : Option α :=
  match newv with
  | some v => some v
  | none => old

/-- Externally observable actions of the program. -/
inductive Event where
  | openFile : Event
  | closeFile : Event
  | sinkWrite : List ℕ → Event
  | display : Image → Event
  | line : String → Event
deriving DecidableEq

/-- Disparity-cache update (lines 129-136): a present read is normalized and
colorized; an absent read keeps the cached colorized frame. -/
def convFD (jet : ℕ → ℕ) (maxD : ℚ) (i : Option RawDisparity) (old : Option Image) :
    Option Image :=
  match i with
  | some raw => some (applyColorMap jet (normFrame maxD raw))
  | none => old

/-- Depth-map update (lines 133-135): recomputed exactly when a disparity
frame arrived. -/
def convDM (maxD focal : ℚ) (i : Option RawDisparity) (old : ℤ → ℤ → ℚ) :
    ℤ → ℤ → ℚ :=
  match i with
  | some raw => depthOfNorm focal (normFrame maxD raw)
  | none => old

/-- One iteration of the main loop (src/APDde.py lines 114-158): drain the
`h265` queue into the sink, update the four caches, and — whenever the
disparity cache is populated — draw the detections onto the cached colorized
frame (storing the drawn-on buffer back, since the draws are in place), print
one observability line per allow-listed detection, and display the buffer.
Returns the new cache state and the events of the iteration; the caller
checks `quitKey` afterwards, as line 157 does. -/
def tick (jet : ℕ → ℕ) (maxD focal : ℚ) (s : LoopState) (i : TickInput) :
    LoopState × List Event :=
  let sinkEvs := i.encChunks.map Event.sinkWrite
  let frame1 := updOpt i.inRight s.frame
  let frameManip1 := updOpt i.inManip s.frameManip
  let frameDisparity1 := convFD jet maxD i.inDisparity s.frameDisparity
  let depthMap1 := convDM maxD focal i.inDisparity s.depthMap
  let detections1 := i.inDet.getD s.detections
  match frameDisparity1 with
  | some img =>
      let img2 := annotate depthMap1 img detections1
      let obs := (detections1.map fun d => (renderDetection depthMap1 d).2).flatten
      ({ frame := frame1, frameManip := frameManip1, frameDisparity := some img2,
         detections := detections1, depthMap := depthMap1 },
       sinkEvs ++ obs.map Event.line ++ [Event.display img2])
  | none =>
      ({ frame := frame1, frameManip := frameManip1, frameDisparity := none,
         detections := detections1, depthMap := depthMap1 },
       sinkEvs)

/-- Run the loop over a schedule of tick inputs, stopping after the first
iteration whose `waitKey` poll saw the quit key (the `break` at line 158
happens after all the work of that iteration). -/
def runTicks (jet : ℕ → ℕ) (maxD focal : ℚ) : LoopState → List TickInput → List Event
  | _, [] => []
  | s, i :: rest =>
      if i.quitKey then (tick jet maxD focal s i).2
      else (tick jet maxD focal s i).2 ++
        runTicks jet maxD focal (tick jet maxD focal s i).1 rest

/-- Initial cache state (src/APDde.py lines 98-101 and 26). -/
def initState : LoopState :=
  { frame := none, frameManip := none, frameDisparity := none,
    detections := [], depthMap := fun _ _ => 0 }

/-- First hint printed after the loop exits (src/APDde.py line 161). -/
def hintLine1 : String :=
  "To view the encoded data, convert the stream file (.h265) into a video file (.mp4) using a command below:"

/-- Second hint printed after the loop exits (src/APDde.py line 162). -/
def hintLine2 : String :=
  "ffmpeg -framerate 30 -i video.h265 -c copy video.mp4"

/-- Observable events of a whole run that reaches the `break`: the file open
of line 111, the loop iterations, and the two hint prints of lines 161-162.
The source contains no `videoFile.close()` call on this path, so no close
event ever occurs. -/
def programEvents (jet : ℕ → ℕ) (maxD focal : ℚ) (s : LoopState)
    (inputs : List TickInput) : List Event :=
  Event.openFile :: (runTicks jet maxD focal s inputs ++ [Event.line hintLine1, Event.line hintLine2])

/-!  Helper lemmas shared by the claim proofs. -/

theorem clip01_eval (q : ℚ) (h0 : 0 ≤ q) (h1 : q ≤ 1) : clip01 q = q := by
  unfold clip01
  rw [max_eq_right h0, min_eq_right h1]

theorem clip01_nonneg (q : ℚ) : 0 ≤ clip01 q := by
  unfold clip01
  exact le_min zero_le_one (le_max_left 0 q)

theorem clip01_le_one (q : ℚ) : clip01 q ≤ 1 := min_le_left 1 _

theorem truncToZero_nonneg (q : ℚ) (h : 0 ≤ q) : 0 ≤ truncToZero q := by
  rw [truncToZero_eq_floor q h]
  exact Int.floor_nonneg.mpr h

theorem truncToZero_le (q : ℚ) (n : ℤ) (h0 : 0 ≤ q) (h : q ≤ (n : ℚ)) :
    truncToZero q ≤ n := by
  rw [truncToZero_eq_floor q h0]
  calc ⌊q⌋ ≤ ⌊(n : ℚ)⌋ := Int.floor_le_floor h
  _ = n := Int.floor_intCast n

theorem truncToZero_ge (q : ℚ) (n : ℤ) (h0 : 0 ≤ (n : ℚ)) (h : (n : ℚ) ≤ q) :
    n ≤ truncToZero q := by
  rw [truncToZero_eq_floor q (le_trans h0 h)]
  exact Int.le_floor.mpr h

/-- Concrete evaluation of `truncToZero` through the floor. -/
theorem truncToZero_eval (q : ℚ) (z : ℤ) (h0 : 0 ≤ q) (h : ⌊q⌋ = z) :
    truncToZero q = z := by
  rw [truncToZero_eq_floor q h0, h]

/-- In the no-overflow range, the normalized disparity is exactly the floor of
the scaled sample. -/
theorem normalizedDisparity_eq_floor (maxD : ℚ) (d : ℕ) (h0 : 0 < maxD)
    (hle : (d : ℚ) * (255 / maxD) ≤ 255) :
    (normalizedDisparity maxD d : ℤ) = ⌊(d : ℚ) * (255 / maxD)⌋ := by
  have hq0 : 0 ≤ (d : ℚ) * (255 / maxD) :=
    mul_nonneg (Nat.cast_nonneg d) (le_of_lt (div_pos (by norm_num) h0))
  have hfl0 : 0 ≤ ⌊(d : ℚ) * (255 / maxD)⌋ := Int.floor_nonneg.mpr hq0
  have hfl255 : ⌊(d : ℚ) * (255 / maxD)⌋ < 256 := by
    have h1 : ⌊(d : ℚ) * (255 / maxD)⌋ ≤ ⌊(255 : ℚ)⌋ := Int.floor_le_floor hle
    have h2 : ⌊(255 : ℚ)⌋ = 255 := by norm_num
    omega
  unfold normalizedDisparity astypeUint8 disparityMultiplier
  rw [truncToZero_eq_floor _ hq0, Int.emod_eq_of_lt hfl0 hfl255,
    Int.toNat_of_nonneg hfl0]

/-- Concrete evaluation of one normalized disparity sample. -/
theorem normalizedDisparity_eval (maxD : ℚ) (raw : ℕ) (t : ℤ)
    (h0 : 0 ≤ (raw : ℚ) * (255 / maxD)) (hfl : ⌊(raw : ℚ) * (255 / maxD)⌋ = t) :
    normalizedDisparity maxD raw = (t % 256).toNat := by
  unfold normalizedDisparity astypeUint8 disparityMultiplier
  rw [truncToZero_eq_floor _ h0, hfl]

/-- The sample of the C1 scenario: `maxDisparity = 96`, raw `128`. -/
theorem norm_96_128 : normalizedDisparity 96 128 = 84 := by
  rw [normalizedDisparity_eval 96 128 340 (by norm_num) (by norm_num)]
  decide

/-- C1, counterexample.  At `maxDisparity = 96` and raw disparity `128` the
spec formula `clamp(round(raw * multiplier), 0, 255)` yields 255, but the
cast `astype(np.uint8)` in the program yields 84: the cast truncates and wraps
modulo 256 instead of clamping. -/
theorem C1_counterexample :
    specNormalizedDisparity 96 128 = 255 ∧
    (normalizedDisparity 96 128 : ℤ) ≠ specNormalizedDisparity 96 128 := by
  have hspec : specNormalizedDisparity 96 128 = 255 := by
    unfold specNormalizedDisparity
    have h : round ((((128 : ℕ)) : ℚ) * (255 / 96)) = 340 := by
      rw [round_eq]; push_cast; norm_num
    rw [h]; decide
  refine ⟨hspec, ?_⟩
  rw [hspec, norm_96_128]
  decide

/-- C1, amended.  For every raw disparity sample and every `maxDisparity > 0`,
the normalized disparity equals `floor(raw * (255 / maxDisparity)) mod 256` —
the float-to-uint8 cast truncates toward zero and wraps on overflow rather
than rounding and clamping — and it always lies in [0, 255]; in particular,
for `maxDisparity = 96` and raw disparity `128` the normalized value is 84,
not 255. -/
theorem C1_theorem (maxD : ℚ) (raw : ℕ) (h : 0 < maxD) :
    (normalizedDisparity maxD raw : ℤ) = ⌊(raw : ℚ) * (255 / maxD)⌋ % 256 ∧
    normalizedDisparity maxD raw ≤ 255 ∧
    normalizedDisparity 96 128 = 84 := by
  have hq0 : 0 ≤ (raw : ℚ) * (255 / maxD) :=
    mul_nonneg (Nat.cast_nonneg _) (le_of_lt (div_pos (by norm_num) h))
  refine ⟨?_, ?_, norm_96_128⟩
  · unfold normalizedDisparity astypeUint8 disparityMultiplier
    rw [truncToZero_eq_floor _ hq0]
    exact Int.toNat_of_nonneg (Int.emod_nonneg _ (by norm_num))
  · unfold normalizedDisparity astypeUint8 disparityMultiplier
    have h0 : 0 ≤ truncToZero ((raw : ℚ) * (255 / maxD)) % 256 :=
      Int.emod_nonneg _ (by norm_num)
    have h1 : truncToZero ((raw : ℚ) * (255 / maxD)) % 256 < 256 :=
      Int.emod_lt_of_pos _ (by norm_num)
    omega

/-- Witness for C1_theorem at `maxDisparity = 96`, raw `128`. -/
theorem C1_witness :
    (0 : ℚ) < 96 ∧ (normalizedDisparity 96 128 : ℤ) = ⌊(128 : ℚ) * (255 / 96)⌋ % 256 :=
  ⟨by norm_num, (C1_theorem 96 128 (by norm_num)).1⟩

/-- C2.  A depth pixel is 0 exactly when its normalized disparity sample is 0;
at every non-zero sample it equals `focal * baseline / sample` and is strictly
positive.  The per-pixel depth function is total on ℚ, so no NaN/Inf value and
no division error can reach a consumer. -/
theorem C2_theorem (focal : ℚ) (nd : ℕ) (hf : 0 < focal) :
    (depth_calculated focal nd = 0 ↔ nd = 0) ∧
    (nd ≠ 0 →
      depth_calculated focal nd = focal * baseline / (nd : ℚ) ∧
      0 < depth_calculated focal nd) := by
  have hb : (0 : ℚ) < baseline := by unfold baseline; norm_num
  have hpos : ∀ m : ℕ, m ≠ 0 → 0 < focal * baseline / (m : ℚ) := fun m hm =>
    div_pos (mul_pos hf hb) (by exact_mod_cast Nat.pos_of_ne_zero hm)
  constructor
  · constructor
    · intro h
      by_contra hnd
      unfold depth_calculated at h
      rw [if_neg hnd] at h
      exact absurd h (ne_of_gt (hpos nd hnd))
    · intro h
      unfold depth_calculated
      rw [if_pos h]
  · intro hnd
    unfold depth_calculated
    rw [if_neg hnd]
    exact ⟨rfl, hpos nd hnd⟩

/-- Witness for C2_theorem at `focal = 451`, sample 5. -/
theorem C2_witness :
    (0 : ℚ) < 451 ∧ (depth_calculated 451 5 = 0 ↔ (5 : ℕ) = 0) :=
  ⟨by norm_num, (C2_theorem 451 5 (by norm_num)).1⟩

/-- C4, counterexample.  Raw samples 20 < 97 at `maxDisparity = 96` both have
strictly positive normalized disparity (53 and — after uint8 wraparound — 1),
yet `depth(20) > depth(97)` fails: the wrap makes the larger raw sample map to
the far smaller normalized value 1, whose depth is larger. -/
theorem C4_counterexample :
    (20 : ℕ) < 97 ∧
    0 < normalizedDisparity 96 20 ∧ 0 < normalizedDisparity 96 97 ∧
    ¬ (depth_calculated 1 (normalizedDisparity 96 20) >
        depth_calculated 1 (normalizedDisparity 96 97)) := by
  have h20 : normalizedDisparity 96 20 = 53 := by
    rw [normalizedDisparity_eval 96 20 53 (by norm_num) (by norm_num)]
    decide
  have h97 : normalizedDisparity 96 97 = 1 := by
    rw [normalizedDisparity_eval 96 97 257 (by norm_num) (by norm_num)]
    decide
  refine ⟨by norm_num, by rw [h20]; norm_num, by rw [h97]; norm_num, ?_⟩
  rw [h20, h97]
  unfold depth_calculated baseline
  rw [if_neg (by norm_num : (53 : ℕ) ≠ 0), if_neg (by norm_num : (1 : ℕ) ≠ 0)]
  push_neg
  rw [div_le_div_iff₀ (by norm_num) (by norm_num)]
  push_cast
  norm_num

/-- C4, amended.  The strict inverse monotonicity holds on the operating range
of the device: for raw samples `d1 < d2` that do not exceed `maxDisparity`
(with `0 < maxDisparity ≤ 255`), if the normalized disparity of `d1` is
positive then `depth(d1) > depth(d2)`; outside this range the uint8 wraparound
of the normalization breaks monotonicity. -/
theorem C4_theorem (maxD focal : ℚ) (d1 d2 : ℕ)
    (hmax0 : 0 < maxD) (hmax255 : maxD ≤ 255)
    (hd2 : (d2 : ℚ) ≤ maxD) (hlt : d1 < d2)
    (hpos : 0 < normalizedDisparity maxD d1) (hf : 0 < focal) :
    depth_calculated focal (normalizedDisparity maxD d2) <
      depth_calculated focal (normalizedDisparity maxD d1) := by
  have hm0 : 0 < 255 / maxD := div_pos (by norm_num) hmax0
  have hm1 : (1 : ℚ) ≤ 255 / maxD := (one_le_div hmax0).mpr hmax255
  have hd1 : (d1 : ℚ) ≤ maxD := by
    have : (d1 : ℚ) ≤ (d2 : ℚ) := by exact_mod_cast le_of_lt hlt
    linarith
  have hmm : 255 / maxD * maxD = 255 := div_mul_cancel₀ 255 (ne_of_gt hmax0)
  have hle1 : (d1 : ℚ) * (255 / maxD) ≤ 255 := by
    calc (d1 : ℚ) * (255 / maxD) ≤ maxD * (255 / maxD) :=
          mul_le_mul_of_nonneg_right hd1 (le_of_lt hm0)
    _ = 255 := by rw [mul_comm]; exact hmm
  have hle2 : (d2 : ℚ) * (255 / maxD) ≤ 255 := by
    calc (d2 : ℚ) * (255 / maxD) ≤ maxD * (255 / maxD) :=
          mul_le_mul_of_nonneg_right hd2 (le_of_lt hm0)
    _ = 255 := by rw [mul_comm]; exact hmm
  have e1 := normalizedDisparity_eq_floor maxD d1 hmax0 hle1
  have e2 := normalizedDisparity_eq_floor maxD d2 hmax0 hle2
  have hfl : ⌊(d1 : ℚ) * (255 / maxD)⌋ < ⌊(d2 : ℚ) * (255 / maxD)⌋ := by
    have hstep : ((d1 : ℚ) + 1) * (255 / maxD) ≤ (d2 : ℚ) * (255 / maxD) := by
      refine mul_le_mul_of_nonneg_right ?_ (le_of_lt hm0)
      exact_mod_cast Nat.succ_le_of_lt hlt
    have h1 : (d1 : ℚ) * (255 / maxD) + 1 ≤ (d2 : ℚ) * (255 / maxD) := by
      nlinarith
    calc ⌊(d1 : ℚ) * (255 / maxD)⌋ < ⌊(d1 : ℚ) * (255 / maxD)⌋ + 1 := lt_add_one _
    _ = ⌊(d1 : ℚ) * (255 / maxD) + 1⌋ := (Int.floor_add_one _).symm
    _ ≤ ⌊(d2 : ℚ) * (255 / maxD)⌋ := Int.floor_le_floor h1
  have hn12 : normalizedDisparity maxD d1 < normalizedDisparity maxD d2 := by
    have h := hfl
    rw [← e1, ← e2] at h
    exact_mod_cast h
  have hne1 : normalizedDisparity maxD d1 ≠ 0 := Nat.pos_iff_ne_zero.mp hpos
  have hne2 : normalizedDisparity maxD d2 ≠ 0 := by omega
  unfold depth_calculated
  rw [if_neg hne1, if_neg hne2]
  have hfb : 0 < focal * baseline := mul_pos hf (by unfold baseline; norm_num)
  exact div_lt_div_of_pos_left hfb (by exact_mod_cast hpos) (by exact_mod_cast hn12)

/-- Witness for C4_theorem at `maxDisparity = 96`, `focal = 1`, samples 1 < 2. -/
theorem C4_witness :
    0 < normalizedDisparity 96 1 ∧
    depth_calculated 1 (normalizedDisparity 96 2) <
      depth_calculated 1 (normalizedDisparity 96 1) := by
  have h1 : normalizedDisparity 96 1 = 2 := by
    rw [normalizedDisparity_eval 96 1 2 (by norm_num) (by norm_num)]
    decide
  refine ⟨by rw [h1]; norm_num, ?_⟩
  exact C4_theorem 96 1 1 2 (by norm_num) (by norm_num) (by norm_num) (by norm_num)
    (by rw [h1]; norm_num) (by norm_num)

theorem offsetX_eq : offsetX = 120 := by
  unfold offsetX sensorWidth sensorHeight
  decide

/-- Bounds of one clipped-and-scaled coordinate of `frameNorm`. -/
theorem scaledCoord_bounds (q : ℚ) (n : ℕ) :
    0 ≤ truncToZero (clip01 q * (n : ℚ)) ∧
    truncToZero (clip01 q * (n : ℚ)) ≤ (n : ℤ) := by
  have h0 : 0 ≤ clip01 q * (n : ℚ) := mul_nonneg (clip01_nonneg q) (Nat.cast_nonneg n)
  have h1 : clip01 q * (n : ℚ) ≤ (n : ℚ) := by
    calc clip01 q * (n : ℚ) ≤ 1 * (n : ℚ) :=
          mul_le_mul_of_nonneg_right (clip01_le_one q) (Nat.cast_nonneg n)
    _ = (n : ℚ) := one_mul _
  exact ⟨truncToZero_nonneg _ h0, truncToZero_le _ (n : ℤ) h0 (by push_cast; exact h1)⟩

/-- Bounds of the four pixel-box coordinates after the crop offset. -/
theorem pixelBox_bounds (b : NormBbox) :
    120 ≤ (pixelBox b).x0 ∧ (pixelBox b).x0 ≤ 520 ∧
    0 ≤ (pixelBox b).y0 ∧ (pixelBox b).y0 ≤ 400 ∧
    120 ≤ (pixelBox b).x1 ∧ (pixelBox b).x1 ≤ 520 ∧
    0 ≤ (pixelBox b).y1 ∧ (pixelBox b).y1 ≤ 400 := by
  have hx0 := scaledCoord_bounds b.xmin sensorHeight
  have hy0 := scaledCoord_bounds b.ymin sensorHeight
  have hx1 := scaledCoord_bounds b.xmax sensorHeight
  have hy1 := scaledCoord_bounds b.ymax sensorHeight
  have hsh : ((sensorHeight : ℕ) : ℤ) = 400 := by norm_num [sensorHeight]
  rw [hsh] at hx0 hy0 hx1 hy1
  simp only [pixelBox, frameNorm, offsetX_eq]
  omega

/-- Truncated average of two integers, with bounds. -/
theorem pyHalf_bounds (a b lo hi : ℤ) (hlo : 0 ≤ lo) (ha1 : lo ≤ a) (ha2 : a ≤ hi)
    (hb1 : lo ≤ b) (hb2 : b ≤ hi) : lo ≤ pyHalf a b ∧ pyHalf a b ≤ hi := by
  unfold pyHalf
  have hq0 : 0 ≤ ((a + b : ℤ) : ℚ) / 2 := by
    have : (0 : ℚ) ≤ ((a + b : ℤ) : ℚ) := by exact_mod_cast (by omega : (0 : ℤ) ≤ a + b)
    positivity
  constructor
  · apply truncToZero_ge
    · exact_mod_cast hlo
    · rw [le_div_iff₀ (by norm_num : (0 : ℚ) < 2)]
      exact_mod_cast (by omega : lo * 2 ≤ a + b)
  · apply truncToZero_le _ hi hq0
    rw [div_le_iff₀ (by norm_num : (0 : ℚ) < 2)]
    exact_mod_cast (by omega : a + b ≤ hi * 2)

/-- Evaluation of the pixel box of the all-ones bounding box. -/
theorem pixelBox_ones : pixelBox ⟨1, 1, 1, 1⟩ = ⟨520, 400, 520, 400⟩ := by
  have h1 : clip01 1 = 1 := clip01_eval 1 zero_le_one le_rfl
  have ht : truncToZero ((1 : ℚ) * ((sensorHeight : ℕ) : ℚ)) = 400 := by
    apply truncToZero_eval <;> norm_num [sensorHeight]
  simp only [pixelBox, frameNorm, offsetX_eq, h1, ht]
  decide

/-- C3, counterexample.  For a detection whose clamped normalized y
coordinates equal 1.0, the sampled row index `center_y` equals `sensorHeight`
(= 400), the height of the depth map, so `depth_calculated[center_y, center_x]`
indexes outside the map: the code computes the center by truncation and never
clamps it to the map bounds. -/
theorem C3_counterexample :
    centerY ⟨1, 1, 1, 1⟩ = (sensorHeight : ℤ) ∧
    ¬ inBoundsLookup (centerY ⟨1, 1, 1, 1⟩) (centerX ⟨1, 1, 1, 1⟩) := by
  have hy : centerY ⟨1, 1, 1, 1⟩ = 400 := by
    unfold centerY
    rw [pixelBox_ones]
    unfold pyHalf
    apply truncToZero_eval <;> norm_num
  have hx : centerX ⟨1, 1, 1, 1⟩ = 520 := by
    unfold centerX
    rw [pixelBox_ones]
    unfold pyHalf
    apply truncToZero_eval <;> norm_num
  constructor
  · rw [hy]; norm_num [sensorHeight]
  · rw [hy, hx]
    unfold inBoundsLookup sensorHeight sensorWidth
    decide

/-- C3, amended.  The code never clamps the sampled center: `center_x` and
`center_y` are truncated averages of the pixel-box coordinates.  The column
index is nevertheless always within the map width, and the row index lies in
`[0, sensorHeight]` — but the out-of-bounds value `sensorHeight` itself is
attained (at clamped y coordinates equal to 1.0), so the depth lookup can
index one row past the end of the map. -/
theorem C3_theorem (b : NormBbox) :
    0 ≤ centerX b ∧ centerX b < (sensorWidth : ℤ) ∧
    0 ≤ centerY b ∧ centerY b ≤ (sensorHeight : ℤ) ∧
    centerY ⟨1, 1, 1, 1⟩ = (sensorHeight : ℤ) := by
  obtain ⟨h1, h2, h3, h4, h5, h6, h7, h8⟩ := pixelBox_bounds b
  have hcx := pyHalf_bounds (pixelBox b).x0 (pixelBox b).x1 120 520
    (by norm_num) h1 h2 h5 h6
  have hcy := pyHalf_bounds (pixelBox b).y0 (pixelBox b).y1 0 400
    le_rfl h3 h4 h7 h8
  have hy1 : centerY ⟨1, 1, 1, 1⟩ = 400 := by
    unfold centerY
    rw [pixelBox_ones]
    unfold pyHalf
    apply truncToZero_eval <;> norm_num
  refine ⟨?_, ?_, ?_, ?_, ?_⟩
  · unfold centerX; omega
  · unfold centerX
    have : ((sensorWidth : ℕ) : ℤ) = 640 := by norm_num [sensorWidth]
    omega
  · unfold centerY; exact hcy.1
  · unfold centerY
    have : ((sensorHeight : ℕ) : ℤ) = 400 := by norm_num [sensorHeight]
    omega
  · rw [hy1]; norm_num [sensorHeight]

/-- C5.  Every clipped-and-scaled bounding-box coordinate lies in
`[0, squareDim]` before the crop offset, and after adding the offset to the x
coordinates the pixel box lies within `[0, sensorWidth] × [0, sensorHeight]`. -/
theorem C5_theorem (b : NormBbox) :
    (0 ≤ (frameNorm sensorHeight sensorHeight b).x0 ∧
      (frameNorm sensorHeight sensorHeight b).x0 ≤ (squareDim : ℤ)) ∧
    (0 ≤ (frameNorm sensorHeight sensorHeight b).y0 ∧
      (frameNorm sensorHeight sensorHeight b).y0 ≤ (squareDim : ℤ)) ∧
    (0 ≤ (frameNorm sensorHeight sensorHeight b).x1 ∧
      (frameNorm sensorHeight sensorHeight b).x1 ≤ (squareDim : ℤ)) ∧
    (0 ≤ (frameNorm sensorHeight sensorHeight b).y1 ∧
      (frameNorm sensorHeight sensorHeight b).y1 ≤ (squareDim : ℤ)) ∧
    (0 ≤ (pixelBox b).x0 ∧ (pixelBox b).x0 ≤ (sensorWidth : ℤ)) ∧
    (0 ≤ (pixelBox b).y0 ∧ (pixelBox b).y0 ≤ (sensorHeight : ℤ)) ∧
    (0 ≤ (pixelBox b).x1 ∧ (pixelBox b).x1 ≤ (sensorWidth : ℤ)) ∧
    (0 ≤ (pixelBox b).y1 ∧ (pixelBox b).y1 ≤ (sensorHeight : ℤ)) := by
  have hx0 := scaledCoord_bounds b.xmin sensorHeight
  have hy0 := scaledCoord_bounds b.ymin sensorHeight
  have hx1 := scaledCoord_bounds b.xmax sensorHeight
  have hy1 := scaledCoord_bounds b.ymax sensorHeight
  have hsh : ((sensorHeight : ℕ) : ℤ) = 400 := by norm_num [sensorHeight]
  have hsw : ((sensorWidth : ℕ) : ℤ) = 640 := by norm_num [sensorWidth]
  have hsq : ((squareDim : ℕ) : ℤ) = 400 := by
    norm_num [squareDim, sensorWidth, sensorHeight]
  rw [hsh] at hx0 hy0 hx1 hy1
  simp only [pixelBox, frameNorm, offsetX_eq, hsq, hsh, hsw]
  omega

/-- Fixed depth map used by the concrete witnesses. -/
def dm0 : ℤ → ℤ → ℚ := fun _ _ => 0

/-- A detection labeled person (index 15 of `labelMap`). -/
def personDet : Detection := ⟨15, 1/2, 0, 0, 0, 0⟩

/-- A detection labeled dog (index 12 of `labelMap`), not in the allow-list. -/
def dogDet : Detection := ⟨12, 1/2, 0, 0, 0, 0⟩

/-- A person detection with confidence 0.999. -/
def confDet : Detection := ⟨15, 999/1000, 0, 0, 0, 0⟩

/-- C6.  A detection yields rendered output exactly when its label name is in
the allow-list; an allow-listed detection yields exactly one box outline, one
class-name text, one confidence text, one distance text, and exactly one
observability line of the fixed format with the distance printed to two
decimal places. -/
theorem C6_theorem (dm : ℤ → ℤ → ℚ) (d : Detection) :
    (renderDetection dm d = ([], []) ↔ detName d ∉ includedLabels) ∧
    (detName d ∈ includedLabels →
      (renderDetection dm d).1.countP isBoxElem = 1 ∧
      (renderDetection dm d).1.countP isNameElem = 1 ∧
      (renderDetection dm d).1.countP isConfElem = 1 ∧
      (renderDetection dm d).1.countP isDistElem = 1 ∧
      (renderDetection dm d).2 =
        [obsLineFor (detName d) (centerDepth dm (detBox d)) (confPercent d.confidence)]) := by
  by_cases h : detName d ∈ includedLabels
  · refine ⟨?_, fun _ => ?_⟩
    · simp [renderDetection, h]
    · simp [renderDetection, h, isBoxElem, isNameElem, isConfElem, isDistElem,
        List.countP_cons, List.countP_nil]
  · exact ⟨by simp [renderDetection, h], fun hmem => absurd hmem h⟩

/-- Witness for C6_theorem: a dog detection renders nothing, a person
detection renders exactly one box. -/
theorem C6_witness :
    renderDetection dm0 dogDet = ([], []) ∧
    (renderDetection dm0 personDet).1.countP isBoxElem = 1 :=
  ⟨(C6_theorem dm0 dogDet).1.mpr (by decide),
   ((C6_theorem dm0 personDet).2 (by decide)).1⟩

/-- C10.  The confidence percentage drawn on the overlay is the same value
printed in the observability line, namely `confidence * 100` truncated toward
zero (characterized by the floor bounds); for confidence 0.999 it is 99, while
rounding would give 100. -/
theorem C10_theorem (dm : ℤ → ℤ → ℚ) (d : Detection)
    (hmem : detName d ∈ includedLabels) (h0 : 0 ≤ d.confidence) :
    RenderElem.confText (toString (confPercent d.confidence) ++ "%") ∈
      (renderDetection dm d).1 ∧
    (renderDetection dm d).2 =
      [obsLineFor (detName d) (centerDepth dm (detBox d)) (confPercent d.confidence)] ∧
    (confPercent d.confidence : ℚ) ≤ d.confidence * 100 ∧
    d.confidence * 100 < (confPercent d.confidence : ℚ) + 1 ∧
    confPercent (999/1000) = 99 ∧
    round ((999 : ℚ) / 1000 * 100) = 100 := by
  have hc0 : 0 ≤ d.confidence * 100 := mul_nonneg h0 (by norm_num)
  refine ⟨?_, ?_, ?_, ?_, ?_, ?_⟩
  · simp [renderDetection, hmem]
  · simp [renderDetection, hmem]
  · unfold confPercent
    rw [truncToZero_eq_floor _ hc0]
    exact Int.floor_le _
  · unfold confPercent
    rw [truncToZero_eq_floor _ hc0]
    exact Int.lt_floor_add_one _
  · unfold confPercent
    apply truncToZero_eval <;> norm_num
  · rw [round_eq]; norm_num

/-- Witness for C10_theorem at the 0.999-confidence person detection. -/
theorem C10_witness :
    RenderElem.confText (toString (confPercent confDet.confidence) ++ "%") ∈
      (renderDetection dm0 confDet).1 ∧
    confPercent (999/1000) = 99 := by
  have h := C10_theorem dm0 confDet (by decide) (by norm_num [confDet])
  exact ⟨h.1, h.2.2.2.2.1⟩

/-- A tick on which every poll came back empty and no quit was seen. -/
def nullInput : TickInput := ⟨none, none, none, none, [], false⟩

/-- A tick with one drained encoded chunk on which the quit key was seen. -/
def quitInput : TickInput := ⟨none, none, none, none, [[1, 2]], true⟩

/-- A one-row colorized base image, wide enough to contain the drawn pixels of
`personDet`. -/
def base0 : Image := [List.replicate 121 0]

/-- A slightly wider one-row base image used for the renderer claim. -/
def base1 : Image := [List.replicate 125 0]

/-- A person detection with a small non-degenerate bounding box. -/
def det1 : Detection := ⟨15, 1/2, 0, 0, 1/100, 1/100⟩

/-- Cached state holding `base0` and one person detection. -/
def s0 : LoopState := ⟨none, none, some base0, [personDet], dm0⟩

/-- Cached state holding `base1` and the detection `det1`. -/
def s1 : LoopState := ⟨none, none, some base1, [det1], dm0⟩

/-- Evaluation of the pixel box of the all-zeros bounding box. -/
theorem pixelBox_zeros : pixelBox ⟨0, 0, 0, 0⟩ = ⟨120, 0, 120, 0⟩ := by
  have h0 : clip01 0 = 0 := clip01_eval 0 le_rfl zero_le_one
  have ht : truncToZero ((0 : ℚ) * ((sensorHeight : ℕ) : ℚ)) = 0 := by
    apply truncToZero_eval <;> norm_num
  simp only [pixelBox, frameNorm, offsetX_eq, h0, ht]
  decide

/-- Evaluation of the pixel box of the bounding box of `det1`. -/
theorem pixelBox_det1 : pixelBox ⟨0, 0, 1/100, 1/100⟩ = ⟨120, 0, 124, 4⟩ := by
  have h0 : clip01 0 = 0 := clip01_eval 0 le_rfl zero_le_one
  have h1 : clip01 (1/100) = 1/100 := clip01_eval _ (by norm_num) (by norm_num)
  have ht0 : truncToZero ((0 : ℚ) * ((sensorHeight : ℕ) : ℚ)) = 0 := by
    apply truncToZero_eval <;> norm_num
  have ht1 : truncToZero ((1/100 : ℚ) * ((sensorHeight : ℕ) : ℚ)) = 4 := by
    apply truncToZero_eval <;> norm_num [sensorHeight]
  simp only [pixelBox, frameNorm, offsetX_eq, h0, h1, ht0, ht1]
  decide

/-- Drawing `personDet` on `base0` changes the buffer (pixel (120, 0) of the
box outline turns green). -/
theorem annotate_changes_base0 : annotate dm0 base0 [personDet] ≠ base0 := by
  have hmem : detName personDet ∈ includedLabels := by decide
  simp only [annotate, List.foldl, detBox, personDet, hmem, if_true, pixelBox_zeros]
  decide

/-- Drawing `det1` on `base1` changes the buffer. -/
theorem annotate_changes_base1 : annotate dm0 base1 [det1] ≠ base1 := by
  have hmem : detName det1 ∈ includedLabels := by decide
  simp only [annotate, List.foldl, detBox, det1, hmem, if_true, pixelBox_det1]
  decide

/-- C7, counterexample.  On a tick with no new disparity frame, the loop
renders onto the cached colorized buffer: afterwards the cache no longer holds
the original `ColorizedDepthBase`, so the renderer does mutate its input
buffer rather than returning a fresh annotated copy. -/
theorem C7_counterexample :
    nullInput.inDisparity = none ∧
    s1.frameDisparity = some base1 ∧
    (tick (fun v => v) 96 1 s1 nullInput).1.frameDisparity ≠ some base1 := by
  refine ⟨rfl, rfl, ?_⟩
  have htick : (tick (fun v => v) 96 1 s1 nullInput).1.frameDisparity
      = some (annotate dm0 base1 [det1]) := rfl
  rw [htick]
  intro hcontra
  exact annotate_changes_base1 (Option.some.inj hcontra)

/-- C7, amended.  The overlay pass is deterministic — the displayed image is a
function of the cached base, the detection list and the depth map alone, namely
`annotate` of those — but it draws in place: after the render the
`frameDisparity` cache holds the annotated buffer, not the original base. -/
theorem C7_theorem (jet : ℕ → ℕ) (maxD focal : ℚ) (s : LoopState) (i : TickInput)
    (img : Image) (hd : i.inDisparity = none) (hc : s.frameDisparity = some img) :
    (tick jet maxD focal s i).1.frameDisparity
      = some (annotate s.depthMap img (i.inDet.getD s.detections)) ∧
    Event.display (annotate s.depthMap img (i.inDet.getD s.detections)) ∈
      (tick jet maxD focal s i).2 := by
  constructor
  · simp only [tick, convFD, convDM, hd, hc]
  · simp only [tick, convFD, convDM, hd, hc]
    simp [List.mem_append]

/-- Witness for C7_theorem at the concrete state `s1`. -/
theorem C7_witness :
    (tick (fun v => v) 96 1 s1 nullInput).1.frameDisparity
      = some (annotate s1.depthMap base1 (nullInput.inDet.getD s1.detections)) ∧
    Event.display (annotate s1.depthMap base1 (nullInput.inDet.getD s1.detections)) ∈
      (tick (fun v => v) 96 1 s1 nullInput).2 :=
  C7_theorem (fun v => v) 96 1 s1 nullInput base1 rfl rfl

/-- C8, counterexample.  A tick whose disparity poll returned nothing can
still change the cached disparity value: the render pass draws onto the cached
buffer in place, so the claim that an absent read leaves every cached value
untouched fails for the disparity cache. -/
theorem C8_counterexample :
    nullInput.inDisparity = none ∧
    s0.frameDisparity = some base0 ∧
    (tick (fun v => v) 96 1 s0 nullInput).1.frameDisparity ≠ some base0 := by
  refine ⟨rfl, rfl, ?_⟩
  have htick : (tick (fun v => v) 96 1 s0 nullInput).1.frameDisparity
      = some (annotate dm0 base0 [personDet]) := rfl
  rw [htick]
  intro hcontra
  exact annotate_changes_base0 (Option.some.inj hcontra)

/-- C8, amended.  The right-frame, manip-frame and detection caches are left
untouched by an absent read, and before the first disparity frame has arrived
a tick performs no conversion, no fusion and no rendering — its only events
are the sink writes.  (The disparity cache, by contrast, can change on an
absent read once it is populated, because rendering draws on it in place.) -/
theorem C8_theorem (jet : ℕ → ℕ) (maxD focal : ℚ) (s : LoopState) (i : TickInput) :
    (i.inRight = none → (tick jet maxD focal s i).1.frame = s.frame) ∧
    (i.inManip = none → (tick jet maxD focal s i).1.frameManip = s.frameManip) ∧
    (i.inDet = none → (tick jet maxD focal s i).1.detections = s.detections) ∧
    (i.inDisparity = none → s.frameDisparity = none →
      (tick jet maxD focal s i).1.frameDisparity = none ∧
      (tick jet maxD focal s i).1.depthMap = s.depthMap ∧
      (tick jet maxD focal s i).2 = i.encChunks.map Event.sinkWrite) := by
  cases hfd : convFD jet maxD i.inDisparity s.frameDisparity with
  | none =>
      refine ⟨fun h => ?_, fun h => ?_, fun h => ?_, fun h1 h2 => ⟨?_, ?_, ?_⟩⟩
      · simp only [tick, hfd]; rw [h]; rfl
      · simp only [tick, hfd]; rw [h]; rfl
      · simp only [tick, hfd]; rw [h]; rfl
      · simp only [tick, hfd]
      · simp only [tick, hfd]
        simp only [convDM, h1]
      · simp only [tick, hfd]
  | some img =>
      refine ⟨fun h => ?_, fun h => ?_, fun h => ?_, fun h1 h2 => ?_⟩
      · simp only [tick, hfd]; rw [h]; rfl
      · simp only [tick, hfd]; rw [h]; rfl
      · simp only [tick, hfd]; rw [h]; rfl
      · rw [h1, h2] at hfd
        exact absurd hfd (by simp [convFD])

/-- Witness for C8_theorem on the empty initial state and an all-absent tick. -/
theorem C8_witness :
    (tick (fun v => v) 96 1 initState nullInput).1.frame = initState.frame ∧
    (tick (fun v => v) 96 1 initState nullInput).1.frameDisparity = none ∧
    (tick (fun v => v) 96 1 initState nullInput).2
      = nullInput.encChunks.map Event.sinkWrite := by
  obtain ⟨h1, _, _, h4⟩ := C8_theorem (fun v => v) 96 1 initState nullInput
  exact ⟨h1 rfl, (h4 rfl rfl).1, (h4 rfl rfl).2.2⟩

/-- No tick ever emits a file-close event: the source has no `videoFile.close()`. -/
theorem tick_no_close (jet : ℕ → ℕ) (maxD focal : ℚ) (s : LoopState) (i : TickInput) :
    Event.closeFile ∉ (tick jet maxD focal s i).2 := by
  cases hfd : convFD jet maxD i.inDisparity s.frameDisparity with
  | none => simp [tick, hfd, List.mem_map]
  | some img => simp [tick, hfd, List.mem_append, List.mem_map]

/-- No run of the loop ever emits a file-close event. -/
theorem runTicks_no_close (jet : ℕ → ℕ) (maxD focal : ℚ) :
    ∀ (inputs : List TickInput) (s : LoopState),
      Event.closeFile ∉ runTicks jet maxD focal s inputs := by
  intro inputs
  induction inputs with
  | nil => intro s; simp [runTicks]
  | cons i rest ih =>
      intro s
      by_cases hq : i.quitKey
      · simp only [runTicks, hq, if_true]
        exact tick_no_close jet maxD focal s i
      · have h1 := tick_no_close jet maxD focal s i
        have h2 := ih (tick jet maxD focal s i).1
        simp [runTicks, hq, List.mem_append, h1, h2]

/-- C9, counterexample.  A run in which the quit signal is delivered exits the
loop, but the program closes the output file zero times, not exactly once:
the source never calls close on `videoFile` (the handle is only reclaimed by
the interpreter at process exit). -/
theorem C9_counterexample :
    quitInput.quitKey = true ∧
    (programEvents (fun v => v) 96 1 initState [quitInput]).count Event.closeFile ≠ 1 := by
  refine ⟨rfl, ?_⟩
  have hmem : Event.closeFile ∉ programEvents (fun v => v) 96 1 initState [quitInput] := by
    have hrun := runTicks_no_close (fun v => v) 96 1 [quitInput] initState
    simp [programEvents, List.mem_cons, List.mem_append, hrun]
  rw [List.count_eq_zero.mpr hmem]
  norm_num

/-- The loop run is cut off at the first quit tick: every input after it is
ignored. -/
theorem runTicks_stops (jet : ℕ → ℕ) (maxD focal : ℚ) (i : TickInput)
    (hq : i.quitKey = true) (post : List TickInput) :
    ∀ pre : List TickInput, (∀ j ∈ pre, j.quitKey = false) →
      ∀ s : LoopState,
        runTicks jet maxD focal s (pre ++ i :: post)
          = runTicks jet maxD focal s (pre ++ [i]) := by
  intro pre
  induction pre with
  | nil => intro _ s; simp [runTicks, hq]
  | cons j rest ih =>
      intro hpre s
      have hj : j.quitKey = false := hpre j (List.mem_cons_self j rest)
      have ihr := ih (fun k hk => hpre k (List.mem_cons_of_mem j hk))
        (tick jet maxD focal s j).1
      simp [runTicks, hj, ihr]

/-- C9, amended.  When the quit signal is seen on a tick, the loop stops with
that very iteration — the events of the run are exactly those up to and
including the quit tick, so no sink write occurs after termination — and the
program never explicitly closes the output file handle (zero close events; the
handle is only released by the interpreter at process exit). -/
theorem C9_theorem (jet : ℕ → ℕ) (maxD focal : ℚ) (s : LoopState)
    (pre post : List TickInput) (i : TickInput)
    (hq : i.quitKey = true) (hpre : ∀ j ∈ pre, j.quitKey = false) :
    runTicks jet maxD focal s (pre ++ i :: post) = runTicks jet maxD focal s (pre ++ [i]) ∧
    (programEvents jet maxD focal s (pre ++ i :: post)).count Event.closeFile = 0 := by
  constructor
  · exact runTicks_stops jet maxD focal i hq post pre hpre s
  · apply List.count_eq_zero.mpr
    have hrun := runTicks_no_close jet maxD focal (pre ++ i :: post) s
    simp [programEvents, List.mem_cons, List.mem_append, hrun]

/-- Witness for C9_theorem: quit on the first tick of a two-tick schedule. -/
theorem C9_witness :
    runTicks (fun v => v) 96 1 initState ([] ++ quitInput :: [nullInput])
      = runTicks (fun v => v) 96 1 initState ([] ++ [quitInput]) ∧
    (programEvents (fun v => v) 96 1 initState
        ([] ++ quitInput :: [nullInput])).count Event.closeFile = 0 :=
  C9_theorem (fun v => v) 96 1 initState [] [nullInput] quitInput rfl
    (fun j hj => absurd hj (List.not_mem_nil j))
